import Mathlib

/-!
Verification of the Brain-viewer change-detection and cache-consistency core.

This development shallowly embeds the Python modules
`brain_viewer/hashing.py`, `brain_viewer/timeline.py`, `brain_viewer/ws.py`
(together with the row-fetching helpers of `brain_viewer/db.py` it calls) and
`brain_viewer/sidecar.py` into Lean, and settles the frozen claims C1-C10
about them.

Modelling conventions:
* Python `str` is Lean `String`; Python string comparison (lexicographic by
  code point) is modelled by a structural comparator on the character list,
  which agrees with CPython semantics.
* Python `float` values (timestamps in seconds, gap thresholds) are modelled
  as exact rationals `ℚ`; the arithmetic performed by the code (subtraction,
  division, comparison) is treated as exact.
* Python dicts appearing as rows/payloads are modelled as structures, one
  field per key; a key that may be absent or `None` is an `Option`.
* SQLite tables are modelled as lists of row structures; `ORDER BY rowid` is
  modelled by sorting with a stable insertion sort (CPython's `list.sort` is
  also stable, so on total preorders the two agree extensionally).
* `sqlite3` is modelled functionally: `SELECT` is `List.filter`, a `PRIMARY
  KEY` violation on `INSERT` is an `Except.error` (as `sqlite3` raises
  `IntegrityError`).
* `hashlib.sha256(...).hexdigest()` is modelled as the identity on the
  canonical content string it is applied to: digest equality is content
  equality.  This treats the cryptographic hash as collision-free, which is
  exactly the "collision resistance" requirement the specification states.
-/

set_option maxHeartbeats 1000000
set_option maxRecDepth 8192

attribute [local semireducible] Rat.sub Rat.add Rat.mul Rat.inv

namespace BrainViewer

/-
=======================  DEFINITIONS  =======================
-/

/-- A Bool-valued strict comparator that behaves like the `<` of a linear
order: asymmetric, transitive, and connex (two mutually non-smaller elements
are equal).  CPython's `sorted`/`list.sort` comparisons on the key tuples used
by this code base satisfy these laws. -/
structure LawfulLtB {α : Type} (lt : α → α → Bool) : Prop where
  asymm : ∀ a b, lt a b = true → lt b a = false
  trans : ∀ a b c, lt a b = true → lt b c = true → lt a c = true
  connex : ∀ a b, lt a b = false → lt b a = false → a = b

/-- Sorting with a Bool-valued strict comparator, the way Python sorts with a
key function: `a` precedes `b` when `b` is not strictly smaller than `a`.
Both Mathlib's insertion sort and CPython's timsort are stable, so this is an
extensionally faithful model of `list.sort`/`sorted`. -/
def sortKey {α : Type} (lt : α → α → Bool) (l : List α) : List α :=
  l.insertionSort (fun a b => lt b a = false)

/-- Pulled-back strict comparator of any linear order (used for `Char`, `Nat`
and row ids). -/
def ordLtB {β : Type} [LinearOrder β] (a b : β) : Bool := decide (a < b)

/-- Lexicographic comparison of character lists by code point: CPython's `<`
on `str`. -/
def clLt : List Char → List Char → Bool
  | _, [] => false
  | [], _ :: _ => true
  | a :: as, b :: bs => decide (a < b) || (decide (a = b) && clLt as bs)

/-- CPython comparison on `str` values (lexicographic by code point). -/
def strLt (a b : String) : Bool := clLt a.data b.data

/-- CPython comparison on tuples: lexicographic over the components. -/
def lexLt {α β : Type} [DecidableEq α] (ltA : α → α → Bool)
    (ltB : β → β → Bool) (x y : α × β) : Bool :=
  ltA x.1 y.1 || (decide (x.1 = y.1) && ltB x.2 y.2)

/-
Row model.  The rows come from the SQLite tables read by `db.py`
(`get_entities`/`get_relations`/`get_observations` and
`get_new_rows_since`).  `rowid` is SQLite's implicit integer row id;
`date_added` and `scope` are nullable TEXT columns, hence `Option`.
Free-text columns that are never structurally relevant (`name`, `text`, ...)
are plain strings.
-/

structure EntityRow where
  rowid : Nat
  id : String
  name : String
  entity_type : String
  date_added : Option String
  scope : Option String
deriving DecidableEq

structure RelationRow where
  rowid : Nat
  id : String
  subject_id : String
  predicate : String
  object_id : String
  date_added : Option String
  scope : Option String
deriving DecidableEq

structure ObservationRow where
  rowid : Nat
  id : String
  entity_id : String
  text : String
  severity : String
  source_type : String
  date_added : Option String
  scope : Option String
deriving DecidableEq

/-- A row of the `communities` table as returned by `db.get_communities`
(`member_entity_ids` already JSON-decoded to a list). -/
structure CommunityRow where
  id : String
  member_entity_ids : List String
deriving DecidableEq

/-
hashing.py
-/

/-- `hashing.LAYOUT_VERSION`. -/
def LAYOUT_VERSION : String := "v2"

/-- The entity→community map of `compute_structural_hash` (hashing.py lines
24-28): a Python dict built by iterating communities in list order and their
member lists in order, later writes overwriting earlier ones ("last writer
wins").  The dict is modelled as its lookup function. -/
def entity_community (communities : List CommunityRow) : String → Option String :=
  communities.foldl
    (fun m comm =>
      comm.member_entity_ids.foldl
        (fun m2 eid => fun x => if x = eid then some comm.id else m2 x) m)
    (fun _ => none)

/-- Comparator for triples of strings, as Python compares 3-tuples of `str`. -/
def s3Lt : String × String × String → String × String × String → Bool :=
  lexLt strLt (lexLt strLt strLt)

/-- Comparator for `(str, int)` pairs, as Python compares them. -/
def s2Lt : String × Nat → String × Nat → Bool :=
  lexLt strLt (fun a b : Nat => ordLtB a b)

/-- Entity canonical tuples `(id, scope or "global", community or "")`,
sorted (hashing.py lines 31-34). -/
def entity_tuples (communities : List CommunityRow) (entities : List EntityRow) :
    List (String × String × String) :=
  sortKey s3Lt
    (entities.map (fun e =>
      (e.id, e.scope.getD "global", ((entity_community communities) e.id).getD "")))

/-- Relation canonical triples `(subject_id, predicate, object_id)`, sorted
(hashing.py lines 37-40). -/
def relation_triples (relations : List RelationRow) :
    List (String × String × String) :=
  sortKey s3Lt (relations.map (fun r => (r.subject_id, r.predicate, r.object_id)))

/-- `sorted(observation_counts.items())` (hashing.py line 43).  The dict is
modelled as its item list (unique keys, insertion order). -/
def obs_tuples (observation_counts : List (String × Nat)) : List (String × Nat) :=
  sortKey s2Lt observation_counts

/-- Serialization `f"{a},{b},{c}"` of a canonical triple. -/
def s3Str (t : String × String × String) : String :=
  t.1 ++ "," ++ t.2.1 ++ "," ++ t.2.2

/-- Serialization `f"{a},{b}"` of an observation-count pair. -/
def s2Str (p : String × Nat) : String := p.1 ++ "," ++ toString p.2

/-- `hashing.compute_structural_hash` (hashing.py lines 12-53).  The function
returns `sha256(content).hexdigest()`; per the modelling conventions the
digest is identified with the canonical `content` string it hashes, so two
digests are equal exactly when the content strings are. -/
def compute_structural_hash (entities : List EntityRow)
    (relations : List RelationRow) (communities : List CommunityRow)
    (observation_counts : List (String × Nat)) : String :=
  String.intercalate "\n"
    [ "layout_version:" ++ LAYOUT_VERSION,
      "entities:" ++
        String.intercalate "|" ((entity_tuples communities entities).map s3Str),
      "relations:" ++
        String.intercalate "|" ((relation_triples relations).map s3Str),
      "obs_counts:" ++
        String.intercalate "|" ((obs_tuples observation_counts).map s2Str) ]

/-- No entity id belongs to two distinct communities of the list (the
"source data should prevent this" well-formedness condition of the spec). -/
def commDisjoint (communities : List CommunityRow) : Prop :=
  communities.Pairwise
    (fun c d => ∀ e ∈ c.member_entity_ids, e ∉ d.member_entity_ids)

/-- Two community rows with the same id whose member lists are permutations
of one another. -/
def commEquiv (c d : CommunityRow) : Prop :=
  c.id = d.id ∧ c.member_entity_ids.Perm d.member_entity_ids

/-
Timeline events (timeline.py).  An event is a Python dict with keys
`timestamp`, `event_type`, `entity_id`, `data`; the `data` dict has a fixed
key set per event type, modelled as one constructor per type.  An absent
`source_type` key (the ws.py observation payload omits it) is `none`.
-/

inductive EventData where
  | entity (name : String) (entity_type : String) (scope : String)
  | relation (relation_id : String) (subject_id : String) (predicate : String)
      (object_id : String)
  | observation (observation_id : String) (severity : String) (text : String)
      (source_type : Option String)
  | gap (gap_seconds : ℚ) (display : String)
deriving DecidableEq

structure Event where
  timestamp : Option String
  event_type : String
  entity_id : Option String
  data : EventData
deriving DecidableEq

/-- The ENTITY_CREATED event built by `build_event_stream` (timeline.py lines
22-29), after the `priority` key is popped. -/
def tlEntityEvent (e : EntityRow) : Event :=
  { timestamp := e.date_added
    event_type := "ENTITY_CREATED"
    entity_id := some e.id
    data := EventData.entity e.name e.entity_type (e.scope.getD "global") }

/-- The RELATION_CREATED event built by `build_event_stream` (timeline.py
lines 31-43), after the `priority` key is popped. -/
def tlRelationEvent (r : RelationRow) : Event :=
  { timestamp := r.date_added
    event_type := "RELATION_CREATED"
    entity_id := some r.subject_id
    data := EventData.relation r.id r.subject_id r.predicate r.object_id }

/-- The OBSERVATION_ADDED event built by `build_event_stream` (timeline.py
lines 45-57), after the `priority` key is popped; the text is truncated to
200 characters. -/
def tlObservationEvent (o : ObservationRow) : Event :=
  { timestamp := o.date_added
    event_type := "OBSERVATION_ADDED"
    entity_id := some o.entity_id
    data := EventData.observation o.id o.severity (o.text.take 200)
      (some o.source_type) }

/-- Per-type priority used as the middle sort-key component: 0 for entities,
1 for relations, 2 for observations (timeline.py lines 27, 36, 50). -/
def priorityOf (event_type : String) : Nat :=
  if event_type = "ENTITY_CREATED" then 0
  else if event_type = "RELATION_CREATED" then 1 else 2

/-- Comparator for the sort key `(str, int, str)`. -/
def k6Lt : String × Nat × String → String × Nat × String → Bool :=
  lexLt strLt (lexLt (fun a b : Nat => ordLtB a b) strLt)

/-- The sort key of timeline.py line 60:
`(e["timestamp"] or "", e["priority"], e.get("entity_id", ""))`.
`x or ""` sends both `None` and `""` to `""`, which `Option.getD ""` models
(an empty timestamp is already `""`). -/
def pairKey (p : Event × Nat) : String × Nat × String :=
  (p.1.timestamp.getD "", p.2, p.1.entity_id.getD "")

/-- Comparator on `(event, priority)` pairs induced by `pairKey`. -/
def pairLt (p q : Event × Nat) : Bool := k6Lt (pairKey p) (pairKey q)

/-- `timeline.build_event_stream` (timeline.py lines 10-66): events are
accumulated per table (entities, then relations, then observations), sorted
by the key of line 60, and the `priority` key is popped from the output. -/
def build_event_stream (entities : List EntityRow)
    (observations : List ObservationRow) (relations : List RelationRow) :
    List Event :=
  let events : List (Event × Nat) :=
    entities.map (fun e => (tlEntityEvent e, 0)) ++
    relations.map (fun r => (tlRelationEvent r, 1)) ++
    observations.map (fun o => (tlObservationEvent o, 2))
  (sortKey pairLt events).map Prod.fst

/-- Sort key of a finished event, with the priority recomputed from the event
type (used to state sortedness of the output, where the priority key has
been popped). -/
def eventKey (e : Event) : String × Nat × String :=
  (e.timestamp.getD "", priorityOf e.event_type, e.entity_id.getD "")

/-- Comparator on finished events induced by `eventKey`. -/
def eventLt (a b : Event) : Bool := k6Lt (eventKey a) (eventKey b)

/-
timeline.py: gap compression.
-/

/-- `str.replace("Z", "+00:00")` on the character list (structural model of
the normalization in `parse_ts`, timeline.py line 90). -/
def replaceZchars : List Char → List Char
  | [] => []
  | c :: rest =>
    if c = 'Z' then '+' :: '0' :: '0' :: ':' :: '0' :: '0' :: replaceZchars rest
    else c :: replaceZchars rest

/-- `ts.replace("Z", "+00:00")`. -/
def replaceZ (s : String) : String := ⟨replaceZchars s.data⟩

/-- The nested `parse_ts` of `compress_timeline` (timeline.py lines 85-93).
`datetime.fromisoformat` is Python standard library, external to this
repository; it is modelled by the abstract parameter `fromiso`, which returns
the parsed instant in seconds, or `none` on a parse failure (the
`ValueError`/`TypeError` branch).  `if not ts` sends both `None` and `""` to
`None`. -/
def parse_ts (fromiso : String → Option ℚ) (ts : Option String) : Option ℚ :=
  match ts with
  | none => none
  | some s => if s = "" then none else fromiso (replaceZ s)

/-- Python `int()` on an exact rational: truncation toward zero. -/
def pyInt (q : ℚ) : ℤ := q.num.tdiv q.den

/-- Floor of a rational as an integer. -/
def ratFloorZ (q : ℚ) : ℤ := q.num.fdiv q.den

/-- Round to the nearest integer, ties to even — the rounding used by
Python's fixed-point float formatting, modelled in exact arithmetic. -/
def roundHalfEven (q : ℚ) : ℤ :=
  let f := ratFloorZ q
  let r := q - (f : ℚ)
  if r < 1/2 then f
  else if (1/2 : ℚ) < r then f + 1
  else if f % 2 = 0 then f else f + 1

/-- Python `f"{q:.1f}"` for the nonnegative values reaching it, modelled as
exact one-decimal rounding of the rational value. -/
def fmt1 (q : ℚ) : String :=
  let n := roundHalfEven (q * 10)
  toString (n.tdiv 10) ++ "." ++ toString (n.tmod 10)

/-- `timeline._format_gap` (timeline.py lines 119-125): minutes below one
hour, hours (one decimal) below one day, days (one decimal) otherwise. -/
def format_gap (seconds : ℚ) : String :=
  if seconds < 3600 then toString (pyInt (seconds / 60)) ++ "m skipped"
  else if seconds < 86400 then fmt1 (seconds / 3600) ++ "h skipped"
  else fmt1 (seconds / 86400) ++ "d skipped"

/-- The GAP_SKIPPED marker inserted before an event (timeline.py lines
103-111): it carries the current event's raw timestamp, a null entity id, the
raw gap in seconds, and the display string. -/
def gapMarker (e : Event) (gap : ℚ) : Event :=
  { timestamp := e.timestamp
    event_type := "GAP_SKIPPED"
    entity_id := none
    data := EventData.gap gap (format_gap gap) }

/-- The loop of `compress_timeline` (timeline.py lines 95-116), with the
`prev_time` accumulator made explicit.  A marker is emitted before the
current event when both the previous and current timestamps parsed and the
gap strictly exceeds the threshold; `prev_time` advances only on parseable
events. -/
def compressAux (fromiso : String → Option ℚ) (thr : ℚ) :
    Option ℚ → List Event → List Event
  | _, [] => []
  | prev, e :: rest =>
    (match prev, parse_ts fromiso e.timestamp with
     | some p, some c => if thr < c - p then [gapMarker e (c - p), e] else [e]
     | _, _ => [e]) ++
    compressAux fromiso thr
      (match parse_ts fromiso e.timestamp with
       | some c => some c
       | none => prev) rest

/-- `timeline.compress_timeline` (timeline.py lines 69-116).
`compressed_pause_seconds` is accepted and, as in the source, never read. -/
def compress_timeline (fromiso : String → Option ℚ) (events : List Event)
    (gap_threshold_seconds : ℚ) (compressed_pause_seconds : ℚ) : List Event :=
  if events.isEmpty then [] else compressAux fromiso gap_threshold_seconds none events

/-- The timestamp of the last parseable event of a list — the
"previous parseable event's timestamp" in the claim's phrasing. -/
def lastParsed (fromiso : String → Option ℚ) (processed : List Event) :
    Option ℚ :=
  (processed.filterMap (fun e => parse_ts fromiso e.timestamp)).getLast?

/-- Claim-shaped recompression: for each event, the previous instant is
recomputed from scratch as the last parseable timestamp among all previously
emitted source events (rather than threaded through an accumulator). -/
def compressSpecAux (fromiso : String → Option ℚ) (thr : ℚ)
    (processed : List Event) : List Event → List Event
  | [] => []
  | e :: rest =>
    (match lastParsed fromiso processed, parse_ts fromiso e.timestamp with
     | some p, some c => if thr < c - p then [gapMarker e (c - p), e] else [e]
     | _, _ => [e]) ++
    compressSpecAux fromiso thr (processed ++ [e]) rest

/-- Claim-shaped statement of gap compression, to be proved equal to
`compress_timeline`. -/
def compressSpec (fromiso : String → Option ℚ) (thr : ℚ)
    (events : List Event) : List Event :=
  compressSpecAux fromiso thr [] events

/-- A concrete timestamp parser (digit strings read as seconds) used to
instantiate the abstract `fromiso` parameter in witnesses and
counterexamples. -/
def numSecs (s : String) : Option ℚ :=
  if s.data ≠ [] ∧ s.data.all Char.isDigit then
    some ((s.data.foldl (fun n c => n * 10 + (c.toNat - 48)) 0 : ℕ) : ℚ)
  else none

/-- A concrete event whose timestamp is the given string (used in witnesses
and counterexamples together with `numSecs`). -/
def exampleEvent (ts : String) : Event :=
  { timestamp := some ts
    event_type := "ENTITY_CREATED"
    entity_id := some "x"
    data := EventData.entity "n" "t" "global" }

/-- A pathological input event that is itself typed GAP_SKIPPED (used in the
C10 counterexample). -/
def gapInput : Event :=
  { timestamp := none
    event_type := "GAP_SKIPPED"
    entity_id := none
    data := EventData.gap 0 "" }

/-
ws.py: the realtime poller, with db.py's row fetching.
-/

/-- The per-session watermark set: one row id per tracked table
(ws.py line 39, db.get_max_rowids). -/
structure WM where
  entities : Nat
  observations : Nat
  relations : Nat
deriving DecidableEq

/-- Per-session poller state: watermarks, last seen `PRAGMA data_version`,
and the outgoing message sequence number. -/
structure Sess where
  watermarks : WM
  lastDataVersion : Int
  seq : Nat
deriving DecidableEq

/-- The observable state of the KG store during one poll tick: the version
counter and the three table contents. -/
structure Store where
  data_version : Int
  entities : List EntityRow
  observations : List ObservationRow
  relations : List RelationRow

/-- Result of `db.get_new_rows_since`. -/
structure NewRows where
  entities : List EntityRow
  observations : List ObservationRow
  relations : List RelationRow

/-- `SELECT ... WHERE rowid > ? ORDER BY rowid` over one table. -/
def rowsSince {α : Type} (rowid : α → Nat) (wm : Nat) (rows : List α) :
    List α :=
  sortKey (fun a b => ordLtB (rowid a) (rowid b))
    (rows.filter (fun r => decide (wm < rowid r)))

/-- `db.KGReader.get_new_rows_since` (db.py lines 191-207): per table, the
rows with rowid strictly above that table's watermark, ascending by rowid. -/
def get_new_rows_since (store : Store) (wm : WM) : NewRows :=
  { entities := rowsSince EntityRow.rowid wm.entities store.entities
    observations := rowsSince ObservationRow.rowid wm.observations store.observations
    relations := rowsSince RelationRow.rowid wm.relations store.relations }

/-- ENTITY_CREATED payload of the change feed (ws.py lines 79-89). -/
def wsEntityEvent (r : EntityRow) : Event :=
  { timestamp := r.date_added
    event_type := "ENTITY_CREATED"
    entity_id := some r.id
    data := EventData.entity r.name r.entity_type (r.scope.getD "global") }

/-- RELATION_CREATED payload of the change feed (ws.py lines 92-103). -/
def wsRelationEvent (r : RelationRow) : Event :=
  { timestamp := r.date_added
    event_type := "RELATION_CREATED"
    entity_id := some r.subject_id
    data := EventData.relation r.id r.subject_id r.predicate r.object_id }

/-- OBSERVATION_ADDED payload of the change feed (ws.py lines 106-116): note
that, unlike the timeline builder, the `data` dict carries no `source_type`
key. -/
def wsObservationEvent (r : ObservationRow) : Event :=
  { timestamp := r.date_added
    event_type := "OBSERVATION_ADDED"
    entity_id := some r.entity_id
    data := EventData.observation r.id r.severity (r.text.take 200) none }

/-- Drop the `source_type` key from an observation payload (used to state how
the change-feed mapping differs from the timeline mapping). -/
def stripSourceType (e : Event) : Event :=
  match e.data with
  | EventData.observation i sev t _ =>
    { e with data := EventData.observation i sev t none }
  | _ => e

/-- Fold of `watermarks[t] = max(watermarks[t], row["rowid"])` over a fetched
batch (ws.py lines 90, 104, 117). -/
def foldMaxRowid {α : Type} (rowid : α → Nat) (w : Nat) (rows : List α) : Nat :=
  rows.foldl (fun acc r => max acc (rowid r)) w

/-- The flat event batch of one poll tick (ws.py lines 75-117): the new rows
of each table mapped to payloads, entities first, then relations, then
observations. -/
def tickBatch (store : Store) (wm : WM) : List Event :=
  (get_new_rows_since store wm).entities.map wsEntityEvent ++
  (get_new_rows_since store wm).relations.map wsRelationEvent ++
  (get_new_rows_since store wm).observations.map wsObservationEvent

/-- The advanced watermark set of one poll tick (ws.py lines 90, 104, 117). -/
def tickWM (store : Store) (wm : WM) : WM :=
  { entities :=
      foldMaxRowid EntityRow.rowid wm.entities (get_new_rows_since store wm).entities
    observations :=
      foldMaxRowid ObservationRow.rowid wm.observations
        (get_new_rows_since store wm).observations
    relations :=
      foldMaxRowid RelationRow.rowid wm.relations
        (get_new_rows_since store wm).relations }

/-- Wire messages sent by one poll tick. -/
inductive Msg where
  | heartbeat (seq : Nat)
  | events (seq : Nat) (events : List Event) (watermarks : WM)
deriving DecidableEq

/-- Result of one poll tick: the messages sent and the updated session. -/
structure Tick where
  sent : List Msg
  session : Sess
deriving DecidableEq

/-- One iteration of the polling loop of `realtime_ws` (ws.py lines 63-126):
compare `PRAGMA data_version` against the last seen value; unchanged ⇒
heartbeat only; changed ⇒ fetch rows above the watermarks, map them to
events (entities, then relations, then observations), advance the watermarks
by max-folding the fetched rowids, and send an events message only when the
batch is non-empty. -/
def pollTick (store : Store) (s : Sess) : Tick :=
  if store.data_version = s.lastDataVersion then
    { sent := [Msg.heartbeat (s.seq + 1)], session := { s with seq := s.seq + 1 } }
  else
    let events := tickBatch store s.watermarks
    let wm := tickWM store s.watermarks
    if events.isEmpty then
      { sent := []
        session := { s with watermarks := wm, lastDataVersion := store.data_version } }
    else
      { sent := [Msg.events (s.seq + 1) events wm]
        session :=
          { s with watermarks := wm, lastDataVersion := store.data_version
                   seq := s.seq + 1 } }

/-
ws.py: the resume handshake (lines 44-57).
-/

/-- JSON values received on the socket.  JSON numbers are modelled as exact
rationals (non-finite floats are outside the model); note that a Python
`bool` satisfies `isinstance(val, (int, float))`, so it is a separate
constructor here. -/
inductive JVal where
  | null
  | bool (b : Bool)
  | num (q : ℚ)
  | str (s : String)
  | arr (items : List JVal)
  | obj (fields : List (String × JVal))

/-- Python dict lookup `d.get(k)` on a decoded JSON object (keys from
`json.loads` are unique). -/
def jGet (fields : List (String × JVal)) (key : String) : Option JVal :=
  (fields.find? (fun p => p.1 == key)).map Prod.snd

/-- The guards of ws.py lines 46-48: the initial message must be a dict with
a `last_seen_rowids` key whose value is itself a dict; anything else leaves
the seeded watermarks untouched.  `none` models no message / timeout /
undecodable payload. -/
def extractClientWM (initial : Option JVal) : Option (List (String × JVal)) :=
  match initial with
  | some (JVal.obj fields) =>
    match jGet fields "last_seen_rowids" with
    | some (JVal.obj cw) => some cw
    | _ => none
  | _ => none

/-- Python `int()` of a nonnegative number (truncation); only reached for
values accepted by the `val >= 0` guard. -/
def pyNat (q : ℚ) : Nat := (q.num.tdiv q.den).toNat

/-- One key of the resume merge (ws.py lines 50-53):
`if isinstance(val, (int, float)) and val >= 0: watermarks[key] = int(val)`.
A JSON number is accepted when nonnegative; a boolean is also accepted
because Python's `bool` is a subclass of `int` (`int(True) = 1`,
`int(False) = 0`, and both are `>= 0`); everything else is ignored. -/
def resumeVal (old : Nat) (v : Option JVal) : Nat :=
  match v with
  | some (JVal.num q) => if 0 ≤ q then pyNat q else old
  | some (JVal.bool b) => cond b 1 0
  | _ => old

/-- The full resume merge (ws.py lines 44-57) applied to the seeded
watermarks: only the three recognized table keys are consulted, each
independently. -/
def applyResume (wm : WM) (initial : Option JVal) : WM :=
  match extractClientWM initial with
  | none => wm
  | some cw =>
    { entities := resumeVal wm.entities (jGet cw "entities")
      observations := resumeVal wm.observations (jGet cw "observations")
      relations := resumeVal wm.relations (jGet cw "relations") }

/-- A concrete resume payload: a fractional entities value (accepted,
truncated), a string observations value (ignored), a negative relations
value (ignored), and an unrecognized key (ignored). -/
def cw9 : List (String × JVal) :=
  [("entities", JVal.num (15/2)), ("observations", JVal.str "x"),
   ("relations", JVal.num (-3)), ("bogus", JVal.num 4)]

/-- The wire message wrapping `cw9`. -/
def msg9 : Option JVal := some (JVal.obj [("last_seen_rowids", JVal.obj cw9)])

/-- A resume message carrying the boolean `true` for the entities key (the
C9 counterexample input). -/
def msgBool : Option JVal :=
  some (JVal.obj [("last_seen_rowids", JVal.obj [("entities", JVal.bool true)])])

/-
Concrete store and session realizing the spec's watermark-feed example:
watermarks {entities: 5, relations: 2, observations: 9}, two new entity rows
with rowids 6 and 7 (and no new relation/observation rows).
-/

def row6 : EntityRow := ⟨6, "e6", "N6", "person", some "2024", some "global"⟩

def row7 : EntityRow := ⟨7, "e7", "N7", "person", some "2024", some "global"⟩

def store0 : Store :=
  { data_version := 1
    entities := [row7, ⟨3, "e3", "N3", "person", none, none⟩, row6]
    observations := [⟨9, "o9", "e3", "txt", "info", "manual", none, none⟩]
    relations := [⟨1, "r1", "e3", "knows", "e6", none, none⟩] }

def sess0 : Sess := { watermarks := ⟨5, 9, 2⟩, lastDataVersion := 0, seq := 0 }

/-- The same store with an unchanged version counter (for the heartbeat
claim: rows above the watermarks exist, but the version matches). -/
def store5 : Store := { store0 with data_version := 0 }

/-
sidecar.py: the node_positions store.
-/

/-- A position value `{"x": .., "y": .., "z": ..}`. -/
structure Pos3 where
  x : ℚ
  y : ℚ
  z : ℚ
deriving DecidableEq

/-- A row of the `node_positions` table (sidecar.py schema lines 12-21).
`entity_id` is the table's only PRIMARY KEY. -/
structure PosRow where
  entity_id : String
  x : ℚ
  y : ℚ
  z : ℚ
  scope : String
  layout_hash : String
  created_at : String
  updated_at : String
deriving DecidableEq

/-- `SidecarDB.get_positions` (sidecar.py lines 73-79): the positions of a
scope, keyed by entity id.  The returned dict is modelled as its item list
in row order. -/
def get_positions (scope : String) (table : List PosRow) :
    List (String × Pos3) :=
  (table.filter (fun r => r.scope == scope)).map
    (fun r => (r.entity_id, ⟨r.x, r.y, r.z⟩))

/-- The INSERT loop of `save_positions` (sidecar.py lines 95-100).  Each
INSERT fails with `IntegrityError` if the table already holds a row with the
same `entity_id` (the column is the PRIMARY KEY), regardless of scope. -/
def insertPosRows (scope layout_hash now : String) (acc : List PosRow) :
    List (String × Pos3) → Except String (List PosRow)
  | [] => Except.ok acc
  | (eid, p) :: rest =>
    if acc.any (fun r => r.entity_id == eid) then
      Except.error "UNIQUE constraint failed: node_positions.entity_id"
    else
      insertPosRows scope layout_hash now
        (acc ++ [⟨eid, p.x, p.y, p.z, scope, layout_hash, now, now⟩]) rest

/-- `SidecarDB.save_positions` (sidecar.py lines 89-101): delete all rows of
the given scope, then insert the new positions in dict order.  `now` stands
for the `_now_iso()` timestamp.  On success the new table state is returned;
a PRIMARY KEY violation surfaces as an error (the transaction is not
committed). -/
def save_positions (table : List PosRow) (positions : List (String × Pos3))
    (layout_hash : String) (scope : String) (now : String) :
    Except String (List PosRow) :=
  insertPosRows scope layout_hash now
    (table.filter (fun r => !(r.scope == scope))) positions

/-- The table state after saving keys {A, B} under the "global" scope (the
starting point of the spec's replace-semantics example). -/
def stAB : List PosRow :=
  [⟨"A", 0, 0, 0, "global", "h1", "t0", "t0"⟩,
   ⟨"B", 0, 0, 0, "global", "h1", "t0", "t0"⟩]

/-- A table state holding entity `E` under scope `s1` (for the C7
counterexample: the `node_positions` PRIMARY KEY is `entity_id` alone). -/
def stE : List PosRow := [⟨"E", 0, 0, 0, "s1", "h1", "t0", "t0"⟩]

/-
=======================  THEOREMS  =======================
-/

theorem LawfulLtB.le_trans {α : Type} {lt : α → α → Bool} (h : LawfulLtB lt) :
    ∀ a b c : α, lt b a = false → lt c b = false → lt c a = false := by
  intro a b c h1 h2
  by_contra hc
  have hca : lt c a = true := by
    cases hh : lt c a with
    | false => exact absurd hh hc
    | true => rfl
  rcases hab : lt a b with _ | _
  · rcases hba : lt b a with _ | _
    · have := h.connex a b hab hba
      subst this
      exact absurd hca (by simp [h2])
    · exact absurd hba (by simp [h1])
  · have := h.trans c a b hca hab
    exact absurd this (by simp [h2])

theorem sortKey_perm {α : Type} (lt : α → α → Bool) (l : List α) :
    (sortKey lt l).Perm l :=
  List.perm_insertionSort _ l

theorem sortKey_sorted {α : Type} (lt : α → α → Bool)
    (hasymm : ∀ a b, lt a b = true → lt b a = false)
    (hletrans : ∀ a b c, lt b a = false → lt c b = false → lt c a = false)
    (l : List α) :
    List.Sorted (fun a b => lt b a = false) (sortKey lt l) := by
  haveI : IsTotal α (fun a b => lt b a = false) := by
    constructor
    intro a b
    cases hh : lt b a with
    | false => exact Or.inl rfl
    | true => exact Or.inr (hasymm b a hh)
  haveI : IsTrans α (fun a b => lt b a = false) := by
    constructor
    intro a b c h1 h2
    exact hletrans a b c h1 h2
  exact List.sorted_insertionSort _ l

theorem sortKey_sorted_of_lawful {α : Type} {lt : α → α → Bool}
    (h : LawfulLtB lt) (l : List α) :
    List.Sorted (fun a b => lt b a = false) (sortKey lt l) :=
  sortKey_sorted lt h.asymm h.le_trans l

theorem sortKey_eq_of_perm {α : Type} {lt : α → α → Bool} (h : LawfulLtB lt)
    {l l' : List α} (hp : l.Perm l') : sortKey lt l = sortKey lt l' := by
  haveI : IsAntisymm α (fun a b => lt b a = false) := by
    constructor
    intro a b h1 h2
    exact h.connex a b h2 h1
  exact List.eq_of_perm_of_sorted
    (((sortKey_perm lt l).trans hp).trans (sortKey_perm lt l').symm)
    (sortKey_sorted_of_lawful h l) (sortKey_sorted_of_lawful h l')

theorem lawful_ordLtB {β : Type} [LinearOrder β] :
    LawfulLtB (fun a b : β => ordLtB a b) := by
  constructor
  · intro a b hab
    simp only [ordLtB, decide_eq_true_eq] at hab
    simp only [ordLtB, decide_eq_false_iff_not]
    exact lt_asymm hab
  · intro a b c hab hbc
    simp only [ordLtB, decide_eq_true_eq] at hab hbc ⊢
    exact lt_trans hab hbc
  · intro a b hab hba
    simp only [ordLtB, decide_eq_false_iff_not] at hab hba
    exact le_antisymm (not_lt.mp hba) (not_lt.mp hab)

theorem lawful_clLt : LawfulLtB clLt := by
  constructor
  · intro a
    induction a with
    | nil =>
      intro b _
      cases b with
      | nil => rfl
      | cons x xs => rfl
    | cons x xs ih =>
      intro b hab
      cases b with
      | nil => simp [clLt] at hab
      | cons y ys =>
        simp only [clLt, Bool.or_eq_true, Bool.and_eq_true, decide_eq_true_eq] at hab
        simp only [clLt, Bool.or_eq_false_iff, Bool.and_eq_false_iff,
          decide_eq_false_iff_not]
        rcases hab with hxy | ⟨hxy, hrec⟩
        · exact ⟨lt_asymm hxy, Or.inl (ne_of_gt hxy)⟩
        · subst hxy
          exact ⟨lt_irrefl x, Or.inr (ih ys hrec)⟩
  · intro a
    induction a with
    | nil =>
      intro b c hab hbc
      cases b with
      | nil => simp [clLt] at hab
      | cons y ys =>
        cases c with
        | nil => simp [clLt] at hbc
        | cons z zs => rfl
    | cons x xs ih =>
      intro b c hab hbc
      cases b with
      | nil => simp [clLt] at hab
      | cons y ys =>
        cases c with
        | nil => simp [clLt] at hbc
        | cons z zs =>
          simp only [clLt, Bool.or_eq_true, Bool.and_eq_true,
            decide_eq_true_eq] at hab hbc ⊢
          rcases hab with hxy | ⟨hxy, hr1⟩
          · rcases hbc with hyz | ⟨hyz, _⟩
            · exact Or.inl (lt_trans hxy hyz)
            · subst hyz; exact Or.inl hxy
          · subst hxy
            rcases hbc with hyz | ⟨hyz, hr2⟩
            · exact Or.inl hyz
            · subst hyz
              exact Or.inr ⟨rfl, ih ys zs hr1 hr2⟩
  · intro a
    induction a with
    | nil =>
      intro b hab _
      cases b with
      | nil => rfl
      | cons y ys => simp [clLt] at hab
    | cons x xs ih =>
      intro b hab hba
      cases b with
      | nil => simp [clLt] at hba
      | cons y ys =>
        simp only [clLt, Bool.or_eq_false_iff, Bool.and_eq_false_iff,
          decide_eq_false_iff_not] at hab hba
        obtain ⟨hxy, hr1⟩ := hab
        obtain ⟨hyx, hr2⟩ := hba
        have hxy' : x = y := le_antisymm (not_lt.mp hyx) (not_lt.mp hxy)
        subst hxy'
        rcases hr1 with hne | h1
        · exact absurd rfl hne
        · rcases hr2 with hne | h2
          · exact absurd rfl hne
          · rw [ih ys h1 h2]

theorem lawful_strLt : LawfulLtB strLt := by
  constructor
  · intro a b hab
    exact lawful_clLt.asymm a.data b.data hab
  · intro a b c hab hbc
    exact lawful_clLt.trans a.data b.data c.data hab hbc
  · intro a b hab hba
    have h := lawful_clLt.connex a.data b.data hab hba
    exact congrArg String.mk h

theorem lawful_lexLt {α β : Type} [DecidableEq α] {ltA : α → α → Bool}
    {ltB : β → β → Bool} (hA : LawfulLtB ltA) (hB : LawfulLtB ltB) :
    LawfulLtB (lexLt ltA ltB) := by
  constructor
  · intro a b hab
    obtain ⟨a1, a2⟩ := a
    obtain ⟨b1, b2⟩ := b
    simp only [lexLt, Bool.or_eq_true, Bool.and_eq_true, decide_eq_true_eq] at hab
    simp only [lexLt, Bool.or_eq_false_iff, Bool.and_eq_false_iff,
      decide_eq_false_iff_not]
    rcases hab with h1 | ⟨h1, h2⟩
    · refine ⟨hA.asymm _ _ h1, Or.inl ?_⟩
      intro he
      rw [he] at h1
      have h2 := hA.asymm _ _ h1
      rw [h1] at h2
      exact Bool.noConfusion h2
    · subst h1
      refine ⟨?_, Or.inr (hB.asymm _ _ h2)⟩
      cases hh : ltA a1 a1 with
      | false => rfl
      | true =>
        have h3 := hA.asymm _ _ hh
        rw [hh] at h3
        exact Bool.noConfusion h3
  · intro a b c hab hbc
    obtain ⟨a1, a2⟩ := a
    obtain ⟨b1, b2⟩ := b
    obtain ⟨c1, c2⟩ := c
    simp only [lexLt, Bool.or_eq_true, Bool.and_eq_true, decide_eq_true_eq]
      at hab hbc ⊢
    rcases hab with h1 | ⟨h1, h2⟩
    · rcases hbc with g1 | ⟨g1, _⟩
      · exact Or.inl (hA.trans _ _ _ h1 g1)
      · rw [g1] at h1; exact Or.inl h1
    · subst h1
      rcases hbc with g1 | ⟨g1, g2⟩
      · exact Or.inl g1
      · subst g1
        exact Or.inr ⟨rfl, hB.trans _ _ _ h2 g2⟩
  · intro a b hab hba
    obtain ⟨a1, a2⟩ := a
    obtain ⟨b1, b2⟩ := b
    simp only [lexLt, Bool.or_eq_false_iff, Bool.and_eq_false_iff,
      decide_eq_false_iff_not] at hab hba
    obtain ⟨h1, h2⟩ := hab
    obtain ⟨g1, g2⟩ := hba
    have he : a1 = b1 := hA.connex _ _ h1 g1
    subst he
    rcases h2 with hne | h2
    · exact absurd rfl hne
    · rcases g2 with hne | g2
      · exact absurd rfl hne
      · have he2 : a2 = b2 := hB.connex _ _ h2 g2
        rw [he2]

theorem lawful_s3Lt : LawfulLtB s3Lt :=
  lawful_lexLt lawful_strLt (lawful_lexLt lawful_strLt lawful_strLt)

theorem lawful_s2Lt : LawfulLtB s2Lt :=
  lawful_lexLt lawful_strLt lawful_ordLtB

theorem lawful_k6Lt : LawfulLtB k6Lt :=
  lawful_lexLt lawful_strLt (lawful_lexLt lawful_ordLtB lawful_strLt)

/-
C1 / C2: the structural fingerprint.
-/

theorem foldl_update_mem (cid : String) (members : List String)
    (m : String → Option String) (x : String) :
    (members.foldl
      (fun m2 eid => fun y => if y = eid then some cid else m2 y) m) x
      = if x ∈ members then some cid else m x := by
  induction members generalizing m with
  | nil => simp
  | cons a as ih =>
    simp only [List.foldl_cons]
    rw [ih]
    by_cases hx : x ∈ as
    · simp [hx, List.mem_cons]
    · by_cases hxa : x = a
      · simp [hx, hxa, List.mem_cons]
      · simp [hx, hxa, List.mem_cons]

theorem commFold_eq_find (x : String) (comms : List CommunityRow)
    (m : String → Option String)
    (hp : comms.Pairwise
      (fun c d => ∀ e ∈ c.member_entity_ids, e ∉ d.member_entity_ids)) :
    (comms.foldl
      (fun acc comm =>
        comm.member_entity_ids.foldl
          (fun m2 eid => fun y => if y = eid then some comm.id else m2 y) acc) m) x
      = (match comms.find? (fun c => decide (x ∈ c.member_entity_ids)) with
         | some c => some c.id
         | none => m x) := by
  induction comms generalizing m with
  | nil => simp
  | cons c cs ih =>
    rw [List.pairwise_cons] at hp
    simp only [List.foldl_cons]
    rw [ih _ hp.2]
    by_cases hx : x ∈ c.member_entity_ids
    · have hnone : cs.find? (fun d => decide (x ∈ d.member_entity_ids)) = none := by
        rw [List.find?_eq_none]
        intro d hd
        simp only [decide_eq_true_eq]
        exact hp.1 d hd x hx
      rw [hnone, List.find?_cons_of_pos _ (by simpa using hx), foldl_update_mem]
      simp [hx]
    · rw [List.find?_cons_of_neg _ (by simpa using hx)]
      cases h : cs.find? (fun d => decide (x ∈ d.member_entity_ids)) with
      | none => simp [foldl_update_mem, hx]
      | some d => simp

theorem find?_congr_of_unique {α : Type} {p : α → Bool} {l l' : List α}
    (hperm : l.Perm l')
    (huniq : ∀ a b, a ∈ l → b ∈ l → p a = true → p b = true → a = b) :
    l.find? p = l'.find? p := by
  cases h : l.find? p with
  | none =>
    rw [List.find?_eq_none] at h
    cases h' : l'.find? p with
    | none => rfl
    | some c =>
      have hc : c ∈ l := hperm.mem_iff.mpr (List.mem_of_find?_eq_some h')
      exact absurd (List.find?_some h') (h c hc)
  | some c =>
    have hc1 : c ∈ l := List.mem_of_find?_eq_some h
    have hc2 : p c = true := List.find?_some h
    cases h' : l'.find? p with
    | none =>
      rw [List.find?_eq_none] at h'
      exact absurd hc2 (h' c (hperm.mem_iff.mp hc1))
    | some d =>
      have hd1 : d ∈ l := hperm.mem_iff.mpr (List.mem_of_find?_eq_some h')
      rw [huniq c d hc1 hd1 hc2 (List.find?_some h')]

theorem commDisjoint_unique {comms : List CommunityRow}
    (hd : commDisjoint comms) (x : String) :
    ∀ a b, a ∈ comms → b ∈ comms →
      decide (x ∈ a.member_entity_ids) = true →
      decide (x ∈ b.member_entity_ids) = true → a = b := by
  intro a b ha hb hpa hpb
  simp only [decide_eq_true_eq] at hpa hpb
  by_contra hne
  have hsym : Symmetric
      (fun c d : CommunityRow => ∀ e ∈ c.member_entity_ids, e ∉ d.member_entity_ids) := by
    intro c d hcd e hed hec
    exact hcd e hec hed
  have := hd.forall hsym ha hb hne
  exact this x hpa hpb

theorem commDisjoint_of_perm {l l' : List CommunityRow} (hd : commDisjoint l)
    (hp : l.Perm l') : commDisjoint l' := by
  refine hd.perm hp ?_
  intro c d hcd e hed hec
  exact hcd e hec hed

theorem forall₂_mem_right {α β : Type} {S : α → β → Prop} {l : List α}
    {l' : List β} (h : List.Forall₂ S l l') :
    ∀ y ∈ l', ∃ x ∈ l, S x y := by
  induction h with
  | nil => intro y hy; cases hy
  | cons hxy htail ih =>
    intro y hy
    rcases List.mem_cons.mp hy with rfl | hy2
    · exact ⟨_, List.mem_cons_self _ _, hxy⟩
    · obtain ⟨x, hx, hS⟩ := ih y hy2
      exact ⟨x, List.mem_cons_of_mem _ hx, hS⟩

theorem commDisjoint_of_forall₂ {l mid : List CommunityRow}
    (h : List.Forall₂ commEquiv l mid) (hd : commDisjoint l) :
    commDisjoint mid := by
  induction h with
  | nil => exact List.Pairwise.nil
  | cons hxy htail ih =>
    rw [commDisjoint, List.pairwise_cons] at hd ⊢
    refine ⟨?_, ih hd.2⟩
    intro d' hd' e he hne
    obtain ⟨d, hdmem, hS⟩ := forall₂_mem_right htail d' hd'
    have he2 := hxy.2.symm.mem_iff.mp he
    have hne2 := hS.2.symm.mem_iff.mp hne
    exact hd.1 d hdmem e he2 hne2

theorem entity_community_forall₂ {l l' : List CommunityRow}
    (h : List.Forall₂ commEquiv l l') (x : String) :
    entity_community l x = entity_community l' x := by
  suffices hgen : ∀ (m m' : String → Option String), (∀ y, m y = m' y) →
      (l.foldl
        (fun acc comm =>
          comm.member_entity_ids.foldl
            (fun m2 eid => fun y => if y = eid then some comm.id else m2 y) acc) m) x =
      (l'.foldl
        (fun acc comm =>
          comm.member_entity_ids.foldl
            (fun m2 eid => fun y => if y = eid then some comm.id else m2 y) acc) m') x by
    exact hgen (fun _ => none) (fun _ => none) (fun _ => rfl)
  induction h generalizing x with
  | nil => intro m m' hmm; exact hmm x
  | @cons a b l₁ l₂ hxy htail ih =>
    intro m m' hmm
    simp only [List.foldl_cons]
    apply ih
    intro y
    rw [foldl_update_mem, foldl_update_mem, hxy.1, hmm y]
    by_cases hy : y ∈ a.member_entity_ids
    · rw [if_pos hy, if_pos (hxy.2.mem_iff.mp hy)]
    · rw [if_neg hy, if_neg (fun hc => hy (hxy.2.mem_iff.mpr hc))]

theorem entity_community_of_perm {l l' : List CommunityRow}
    (hd : commDisjoint l) (hp : l.Perm l') (x : String) :
    entity_community l x = entity_community l' x := by
  have hd' : commDisjoint l' := commDisjoint_of_perm hd hp
  have e1 := commFold_eq_find x l (fun _ => none) hd
  have e2 := commFold_eq_find x l' (fun _ => none) hd'
  calc entity_community l x
      = (match l.find? (fun c => decide (x ∈ c.member_entity_ids)) with
         | some c => some c.id
         | none => none) := e1
    _ = (match l'.find? (fun c => decide (x ∈ c.member_entity_ids)) with
         | some c => some c.id
         | none => none) := by
          rw [find?_congr_of_unique hp (commDisjoint_unique hd x)]
    _ = entity_community l' x := e2.symm

theorem compute_structural_hash_congr (entities entities' : List EntityRow)
    (relations relations' : List RelationRow)
    (communities communities' : List CommunityRow)
    (observation_counts : List (String × Nat))
    (hE : entities.Perm entities') (hR : relations.Perm relations')
    (hmap : ∀ x, entity_community communities' x = entity_community communities x) :
    compute_structural_hash entities' relations' communities' observation_counts
      = compute_structural_hash entities relations communities observation_counts := by
  have hent : entity_tuples communities' entities' = entity_tuples communities entities := by
    unfold entity_tuples
    have hfun : entities'.map
        (fun e => (e.id, e.scope.getD "global",
          ((entity_community communities') e.id).getD "")) =
        entities'.map
        (fun e => (e.id, e.scope.getD "global",
          ((entity_community communities) e.id).getD "")) := by
      apply List.map_congr_left
      intro e _
      rw [hmap]
    rw [hfun]
    exact sortKey_eq_of_perm lawful_s3Lt (hE.symm.map _)
  have hrel : relation_triples relations' = relation_triples relations := by
    unfold relation_triples
    exact sortKey_eq_of_perm lawful_s3Lt (hR.symm.map _)
  unfold compute_structural_hash
  rw [hent, hrel]

/-- C1 (amended): `compute_structural_hash` is invariant (1) under any
permutation of the entities list and of the relations list, and (2) under
any permutation of each community's `member_entity_ids` list — both
unconditionally — and (3) under any permutation of the communities list
provided no entity id belongs to two distinct communities.  (The
disjointness proviso on part (3) alone is forced by the counterexample
`C1_counterexample`: with overlapping communities the "last writer wins"
fold of hashing.py line 28 makes the digest depend on community order.) -/
theorem C1_fingerprint_invariant :
    (∀ (entities entities' : List EntityRow) (relations relations' : List RelationRow)
       (communities : List CommunityRow) (observation_counts : List (String × Nat)),
      entities.Perm entities' → relations.Perm relations' →
      compute_structural_hash entities' relations' communities observation_counts
        = compute_structural_hash entities relations communities observation_counts) ∧
    (∀ (entities : List EntityRow) (relations : List RelationRow)
       (communities communities' : List CommunityRow)
       (observation_counts : List (String × Nat)),
      List.Forall₂ commEquiv communities communities' →
      compute_structural_hash entities relations communities' observation_counts
        = compute_structural_hash entities relations communities observation_counts) ∧
    (∀ (entities : List EntityRow) (relations : List RelationRow)
       (communities communities' : List CommunityRow)
       (observation_counts : List (String × Nat)),
      commDisjoint communities → communities.Perm communities' →
      compute_structural_hash entities relations communities' observation_counts
        = compute_structural_hash entities relations communities observation_counts) := by
  refine ⟨?_, ?_, ?_⟩
  · intro entities entities' relations relations' communities observation_counts hE hR
    exact compute_structural_hash_congr entities entities' relations relations'
      communities communities observation_counts hE hR (fun _ => rfl)
  · intro entities relations communities communities' observation_counts hmem
    exact compute_structural_hash_congr entities entities relations relations
      communities communities' observation_counts (List.Perm.refl _) (List.Perm.refl _)
      (fun x => (entity_community_forall₂ hmem x).symm)
  · intro entities relations communities communities' observation_counts hd hp
    exact compute_structural_hash_congr entities entities relations relations
      communities communities' observation_counts (List.Perm.refl _) (List.Perm.refl _)
      (fun x => (entity_community_of_perm hd hp x).symm)

/-- C1 witness: the three parts of `C1_fingerprint_invariant` instantiated —
entities swapped (with an overlapping-free community present), one
community's member list reversed, and two disjoint communities swapped —
with the discharged hypotheses stated alongside. -/
theorem C1_witness :
    [(⟨1, "a", "A", "t", none, none⟩ : EntityRow), ⟨2, "b", "B", "t", none, none⟩].Perm
      [⟨2, "b", "B", "t", none, none⟩, ⟨1, "a", "A", "t", none, none⟩] ∧
    commDisjoint [⟨"c1", ["a"]⟩, ⟨"c2", ["b"]⟩] ∧
    compute_structural_hash
      [⟨2, "b", "B", "t", none, none⟩, ⟨1, "a", "A", "t", none, none⟩] []
      [⟨"c1", ["a", "b"]⟩] [("a", 2)] =
    compute_structural_hash
      [⟨1, "a", "A", "t", none, none⟩, ⟨2, "b", "B", "t", none, none⟩] []
      [⟨"c1", ["a", "b"]⟩] [("a", 2)] ∧
    compute_structural_hash
      [⟨1, "a", "A", "t", none, none⟩, ⟨2, "b", "B", "t", none, none⟩] []
      [⟨"c1", ["b", "a"]⟩] [("a", 2)] =
    compute_structural_hash
      [⟨1, "a", "A", "t", none, none⟩, ⟨2, "b", "B", "t", none, none⟩] []
      [⟨"c1", ["a", "b"]⟩] [("a", 2)] ∧
    compute_structural_hash
      [⟨1, "a", "A", "t", none, none⟩, ⟨2, "b", "B", "t", none, none⟩] []
      [⟨"c2", ["b"]⟩, ⟨"c1", ["a"]⟩] [("a", 2)] =
    compute_structural_hash
      [⟨1, "a", "A", "t", none, none⟩, ⟨2, "b", "B", "t", none, none⟩] []
      [⟨"c1", ["a"]⟩, ⟨"c2", ["b"]⟩] [("a", 2)] := by
  have hdisj : commDisjoint [⟨"c1", ["a"]⟩, ⟨"c2", ["b"]⟩] := by
    unfold commDisjoint
    decide
  refine ⟨by decide, hdisj, ?_, ?_, ?_⟩
  · exact C1_fingerprint_invariant.1 _ _ _ _ _ _ (by decide) (by decide)
  · exact C1_fingerprint_invariant.2.1 _ _ _ _ _
      (List.Forall₂.cons ⟨rfl, by decide⟩ List.Forall₂.nil)
  · exact C1_fingerprint_invariant.2.2 _ _ _ _ _ hdisj (by decide)

/-- C1 counterexample: the claim as stated (invariance under any permutation
of the communities list, for every input) is false.  With the entity `e` a
member of both `c1` and `c2`, swapping the two communities changes the
digest, because the membership dict of hashing.py line 28 is built "last
writer wins" in list order. -/
theorem C1_counterexample :
    ¬ (compute_structural_hash [⟨0, "e", "E", "t", none, none⟩] []
        [⟨"c2", ["e"]⟩, ⟨"c1", ["e"]⟩] [] =
       compute_structural_hash [⟨0, "e", "E", "t", none, none⟩] []
        [⟨"c1", ["e"]⟩, ⟨"c2", ["e"]⟩] []) := by decide

/-- C2: the code contradicts the claim (and the spec's explicit delimiter
requirement).  `compute_structural_hash` joins raw field values with `,`,
`|` and newline without escaping or rejection (hashing.py lines 48-50), so
two inputs with different structurally-relevant shape — here two different
(entity id, scope) canonical tuples, `("a", "b,c")` versus `("a,b", "c")` —
serialize to the same canonical content and therefore to the same SHA-256
digest. -/
theorem C2_delimiter_collision :
    compute_structural_hash [⟨0, "a", "n", "t", none, some "b,c"⟩] [] [] [] =
      compute_structural_hash [⟨0, "a,b", "n", "t", none, some "c"⟩] [] [] [] ∧
    (⟨0, "a", "n", "t", none, some "b,c"⟩ : EntityRow).id ≠
      (⟨0, "a,b", "n", "t", none, some "c"⟩ : EntityRow).id := by
  exact ⟨by decide, by decide⟩

/-
C3 / C10: gap compression.
-/

theorem lastParsed_append_single (fromiso : String → Option ℚ)
    (processed : List Event) (e : Event) :
    lastParsed fromiso (processed ++ [e]) =
      match parse_ts fromiso e.timestamp with
      | some c => some c
      | none => lastParsed fromiso processed := by
  unfold lastParsed
  rw [List.filterMap_append]
  cases h : parse_ts fromiso e.timestamp with
  | none => simp [h]
  | some c => simp [h, List.getLast?_concat]

theorem compressAux_eq_spec (fromiso : String → Option ℚ) (thr : ℚ)
    (rest : List Event) :
    ∀ processed : List Event,
      compressAux fromiso thr (lastParsed fromiso processed) rest =
      compressSpecAux fromiso thr processed rest := by
  induction rest with
  | nil => intro processed; rfl
  | cons e es ih =>
    intro processed
    simp only [compressAux, compressSpecAux]
    congr 1
    rw [← lastParsed_append_single]
    exact ih (processed ++ [e])

theorem compress_eq_spec (fromiso : String → Option ℚ) (events : List Event)
    (thr pause : ℚ) :
    compress_timeline fromiso events thr pause = compressSpec fromiso thr events := by
  unfold compress_timeline compressSpec
  cases events with
  | nil => rfl
  | cons e es =>
    have h0 : lastParsed fromiso [] = none := rfl
    rw [show (e :: es).isEmpty = false from rfl]
    simpa [h0] using compressAux_eq_spec fromiso thr (e :: es) []

/-- C3: gap compression inserts exactly one GAP_SKIPPED marker immediately
before an event whose parsed timestamp exceeds the previous parseable
event's timestamp by strictly more than the threshold, carrying the raw gap
in seconds and a display string in minutes below one hour, hours below one
day, days otherwise; no marker is inserted at or below the threshold.
Stated as: (1) `compress_timeline` equals the claim-shaped `compressSpec`,
where the previous instant is recomputed per event as the last parseable
timestamp of the preceding events and a `[marker, event]` block is emitted
exactly when the gap strictly exceeds the threshold; (2-4) unit selection of
the display string; (5-6) the spec's concrete examples: events 1000 s apart
at threshold 60 get exactly one marker with `gap_seconds = 1000`, events
30 s apart get none. -/
theorem C3_gap_compression :
    (∀ (fromiso : String → Option ℚ) (events : List Event) (thr pause : ℚ),
      compress_timeline fromiso events thr pause = compressSpec fromiso thr events) ∧
    (∀ g : ℚ, g < 3600 → ∃ k : ℤ, format_gap g = toString k ++ "m skipped") ∧
    (∀ g : ℚ, 3600 ≤ g → g < 86400 → ∃ s, format_gap g = s ++ "h skipped") ∧
    (∀ g : ℚ, 86400 ≤ g → ∃ s, format_gap g = s ++ "d skipped") ∧
    compress_timeline numSecs [exampleEvent "0", exampleEvent "1000"] 60 (1/2) =
      [exampleEvent "0",
       { timestamp := some "1000", event_type := "GAP_SKIPPED", entity_id := none,
         data := EventData.gap 1000 "16m skipped" },
       exampleEvent "1000"] ∧
    compress_timeline numSecs [exampleEvent "0", exampleEvent "30"] 60 (1/2) =
      [exampleEvent "0", exampleEvent "30"] := by
  refine ⟨compress_eq_spec, ?_, ?_, ?_, by decide, by decide⟩
  · intro g hg
    unfold format_gap
    rw [if_pos hg]
    exact ⟨pyInt (g / 60), rfl⟩
  · intro g hg1 hg2
    unfold format_gap
    rw [if_neg (not_lt.mpr hg1), if_pos hg2]
    exact ⟨fmt1 (g / 3600), rfl⟩
  · intro g hg
    unfold format_gap
    rw [if_neg (not_lt.mpr (by linarith)), if_neg (not_lt.mpr hg)]
    exact ⟨fmt1 (g / 86400), rfl⟩

/-- C3 witness: the compression/spec equality and the minutes-branch of the
display format instantiated at the spec's 1000-second example. -/
theorem C3_witness :
    (1000 : ℚ) < 3600 ∧
    compress_timeline numSecs [exampleEvent "0", exampleEvent "1000"] 60 (1/2) =
      compressSpec numSecs 60 [exampleEvent "0", exampleEvent "1000"] ∧
    (∃ k : ℤ, format_gap 1000 = toString k ++ "m skipped") :=
  ⟨by decide, C3_gap_compression.1 numSecs _ 60 (1/2),
   C3_gap_compression.2.1 1000 (by decide)⟩

theorem compressAux_filter (fromiso : String → Option ℚ) (thr : ℚ)
    (events : List Event) :
    ∀ prev : Option ℚ, (∀ e ∈ events, e.event_type ≠ "GAP_SKIPPED") →
      (compressAux fromiso thr prev events).filter
        (fun e => !(e.event_type == "GAP_SKIPPED")) = events := by
  induction events with
  | nil => intro prev _; rfl
  | cons e es ih =>
    intro prev hno
    have hes : ∀ x ∈ es, x.event_type ≠ "GAP_SKIPPED" :=
      fun x hx => hno x (List.mem_cons_of_mem _ hx)
    have hehd : e.event_type ≠ "GAP_SKIPPED" := hno e (List.mem_cons_self e es)
    have hblk : (match prev, parse_ts fromiso e.timestamp with
        | some p, some c => if thr < c - p then [gapMarker e (c - p), e] else [e]
        | _, _ => [e]) = [e] ∨
        ∃ g, (match prev, parse_ts fromiso e.timestamp with
        | some p, some c => if thr < c - p then [gapMarker e (c - p), e] else [e]
        | _, _ => [e]) = [gapMarker e g, e] := by
      cases prev with
      | none =>
        cases parse_ts fromiso e.timestamp with
        | none => exact Or.inl rfl
        | some c => exact Or.inl rfl
      | some p =>
        cases parse_ts fromiso e.timestamp with
        | none => exact Or.inl rfl
        | some c =>
          by_cases h : thr < c - p
          · refine Or.inr ⟨c - p, ?_⟩
            show (if thr < c - p then [gapMarker e (c - p), e] else [e]) = _
            rw [if_pos h]
          · refine Or.inl ?_
            show (if thr < c - p then [gapMarker e (c - p), e] else [e]) = _
            rw [if_neg h]
    simp only [compressAux]
    rw [List.filter_append]
    have h1 : (match prev, parse_ts fromiso e.timestamp with
        | some p, some c => if thr < c - p then [gapMarker e (c - p), e] else [e]
        | _, _ => [e]).filter (fun x => !(x.event_type == "GAP_SKIPPED")) = [e] := by
      rcases hblk with h | ⟨g, h⟩ <;> rw [h] <;> simp [gapMarker, hehd]
    rw [h1, ih _ hes]
    rfl

/-- C10 (amended): for every event list containing no event already typed
GAP_SKIPPED, removing the GAP_SKIPPED markers from the output of
`compress_timeline` gives back exactly the input list — no real event is
dropped, duplicated, reordered or modified — and the empty input yields the
empty output.  (The no-GAP_SKIPPED-input proviso is forced by
`C10_counterexample`: an input event typed GAP_SKIPPED is itself removed by
the filter.) -/
theorem C10_compression_preserves_events (fromiso : String → Option ℚ)
    (events : List Event) (thr pause : ℚ)
    (hno : ∀ e ∈ events, e.event_type ≠ "GAP_SKIPPED") :
    (compress_timeline fromiso events thr pause).filter
      (fun e => !(e.event_type == "GAP_SKIPPED")) = events ∧
    compress_timeline fromiso [] thr pause = [] := by
  refine ⟨?_, rfl⟩
  unfold compress_timeline
  cases events with
  | nil => rfl
  | cons e es =>
    rw [show (e :: es).isEmpty = false from rfl]
    simpa using compressAux_filter fromiso thr (e :: es) none hno

/-- C10 counterexample: the claim as stated (for every event list) is false.
If the input itself contains a GAP_SKIPPED-typed event, the filter removes
it, so the output with markers removed is not the input list. -/
theorem C10_counterexample :
    ¬ ((compress_timeline (fun _ => none) [gapInput] 60 (1/2)).filter
        (fun e => !(e.event_type == "GAP_SKIPPED")) = [gapInput]) := by decide

/-- C10 witness: the amended claim instantiated on a two-event list whose
compression does insert a marker; the filter gives back the input. -/
theorem C10_witness :
    (∀ e ∈ [exampleEvent "0", exampleEvent "1000"], e.event_type ≠ "GAP_SKIPPED") ∧
    (compress_timeline numSecs [exampleEvent "0", exampleEvent "1000"] 60 (1/2)).filter
      (fun e => !(e.event_type == "GAP_SKIPPED")) =
      [exampleEvent "0", exampleEvent "1000"] :=
  ⟨by decide,
   (C10_compression_preserves_events numSecs _ 60 (1/2) (by decide)).1⟩

/-
C4 / C5: the change-feed poll tick.
-/

theorem mem_rowsSince {α : Type} (rowid : α → Nat) (wm : Nat) (rows : List α)
    (r : α) : r ∈ rowsSince rowid wm rows ↔ r ∈ rows ∧ wm < rowid r := by
  unfold rowsSince
  rw [(sortKey_perm _ _).mem_iff, List.mem_filter]
  simp

theorem rowsSince_sorted {α : Type} (rowid : α → Nat) (wm : Nat)
    (rows : List α) :
    ((rowsSince rowid wm rows).map rowid).Sorted (· ≤ ·) := by
  have hs := sortKey_sorted (fun a b => ordLtB (rowid a) (rowid b))
    (by
      intro a b h
      simp only [ordLtB, decide_eq_true_eq] at h
      simp only [ordLtB, decide_eq_false_iff_not]
      exact lt_asymm h)
    (by
      intro a b c h1 h2
      simp only [ordLtB, decide_eq_false_iff_not, not_lt] at h1 h2 ⊢
      exact le_trans h1 h2)
    (rows.filter (fun r => decide (wm < rowid r)))
  unfold rowsSince
  unfold List.Sorted at hs ⊢
  rw [List.pairwise_map]
  refine hs.imp ?_
  intro a b h
  simp only [ordLtB, decide_eq_false_iff_not, not_lt] at h
  exact h

theorem le_foldMaxRowid {α : Type} (rowid : α → Nat) (rows : List α) :
    ∀ w, w ≤ foldMaxRowid rowid w rows := by
  induction rows with
  | nil => intro w; exact le_refl w
  | cons r rs ih =>
    intro w
    exact le_trans (le_max_left w (rowid r)) (ih (max w (rowid r)))

theorem mem_le_foldMaxRowid {α : Type} (rowid : α → Nat) (rows : List α) :
    ∀ w r, r ∈ rows → rowid r ≤ foldMaxRowid rowid w rows := by
  induction rows with
  | nil => intro w r hr; cases hr
  | cons a rs ih =>
    intro w r hr
    rcases List.mem_cons.mp hr with rfl | hr2
    · exact le_trans (le_max_right w (rowid r)) (le_foldMaxRowid rowid rs _)
    · exact ih _ r hr2

theorem foldMaxRowid_eq_or_mem {α : Type} (rowid : α → Nat) (rows : List α) :
    ∀ w, foldMaxRowid rowid w rows = w ∨
      foldMaxRowid rowid w rows ∈ rows.map rowid := by
  induction rows with
  | nil => intro w; exact Or.inl rfl
  | cons a rs ih =>
    intro w
    have hunf : foldMaxRowid rowid w (a :: rs) =
        foldMaxRowid rowid (max w (rowid a)) rs := rfl
    rcases ih (max w (rowid a)) with h | h
    · rcases max_choice w (rowid a) with hm | hm
      · refine Or.inl ?_
        rw [hunf, hm]
        rw [hm] at h
        exact h
      · refine Or.inr ?_
        rw [hunf, h, hm]
        simp
    · refine Or.inr ?_
      rw [hunf]
      exact List.mem_cons_of_mem _ h

theorem foldMaxRowid_mem_of_gt {α : Type} (rowid : α → Nat) (rows : List α)
    (w : Nat) (hne : rows ≠ []) (hall : ∀ r ∈ rows, w < rowid r) :
    foldMaxRowid rowid w rows ∈ rows.map rowid := by
  rcases foldMaxRowid_eq_or_mem rowid rows w with h | h
  · obtain ⟨r, hr⟩ := List.exists_mem_of_ne_nil rows hne
    have h1 : rowid r ≤ foldMaxRowid rowid w rows := mem_le_foldMaxRowid rowid rows w r hr
    rw [h] at h1
    exact absurd (hall r hr) (not_lt.mpr h1)
  · exact h

/-- C4: on a poll tick that observes a changed version counter, the batch
contains exactly one event per row whose rowid strictly exceeds that table's
watermark (entity/relation/observation rows mapped by the ws payload
mapping), rows are fetched ascending by rowid within each table, an events
message with the batch and the advanced watermarks is sent exactly when the
batch is non-empty, each table's watermark advances to the maximum rowid
fetched for that table (it is a fetched rowid and an upper bound of them)
while a table with no new rows keeps its previous watermark, and the
last-seen version is updated. -/
theorem C4_watermark_feed (store : Store) (s : Sess)
    (hv : store.data_version ≠ s.lastDataVersion) :
    ((pollTick store s).sent =
      if (tickBatch store s.watermarks).isEmpty then []
      else [Msg.events (s.seq + 1) (tickBatch store s.watermarks)
              (tickWM store s.watermarks)]) ∧
    (pollTick store s).session.watermarks = tickWM store s.watermarks ∧
    (pollTick store s).session.lastDataVersion = store.data_version ∧
    tickBatch store s.watermarks =
      (get_new_rows_since store s.watermarks).entities.map wsEntityEvent ++
      (get_new_rows_since store s.watermarks).relations.map wsRelationEvent ++
      (get_new_rows_since store s.watermarks).observations.map wsObservationEvent ∧
    (∀ r : EntityRow, r ∈ (get_new_rows_since store s.watermarks).entities ↔
      r ∈ store.entities ∧ s.watermarks.entities < r.rowid) ∧
    (∀ r : RelationRow, r ∈ (get_new_rows_since store s.watermarks).relations ↔
      r ∈ store.relations ∧ s.watermarks.relations < r.rowid) ∧
    (∀ r : ObservationRow, r ∈ (get_new_rows_since store s.watermarks).observations ↔
      r ∈ store.observations ∧ s.watermarks.observations < r.rowid) ∧
    ((get_new_rows_since store s.watermarks).entities.map EntityRow.rowid).Sorted (· ≤ ·) ∧
    ((get_new_rows_since store s.watermarks).relations.map RelationRow.rowid).Sorted (· ≤ ·) ∧
    ((get_new_rows_since store s.watermarks).observations.map ObservationRow.rowid).Sorted (· ≤ ·) ∧
    ((get_new_rows_since store s.watermarks).entities = [] →
      (tickWM store s.watermarks).entities = s.watermarks.entities) ∧
    ((get_new_rows_since store s.watermarks).entities ≠ [] →
      (tickWM store s.watermarks).entities ∈
        (get_new_rows_since store s.watermarks).entities.map EntityRow.rowid ∧
      ∀ r ∈ (get_new_rows_since store s.watermarks).entities,
        r.rowid ≤ (tickWM store s.watermarks).entities) ∧
    ((get_new_rows_since store s.watermarks).relations = [] →
      (tickWM store s.watermarks).relations = s.watermarks.relations) ∧
    ((get_new_rows_since store s.watermarks).relations ≠ [] →
      (tickWM store s.watermarks).relations ∈
        (get_new_rows_since store s.watermarks).relations.map RelationRow.rowid ∧
      ∀ r ∈ (get_new_rows_since store s.watermarks).relations,
        r.rowid ≤ (tickWM store s.watermarks).relations) ∧
    ((get_new_rows_since store s.watermarks).observations = [] →
      (tickWM store s.watermarks).observations = s.watermarks.observations) ∧
    ((get_new_rows_since store s.watermarks).observations ≠ [] →
      (tickWM store s.watermarks).observations ∈
        (get_new_rows_since store s.watermarks).observations.map ObservationRow.rowid ∧
      ∀ r ∈ (get_new_rows_since store s.watermarks).observations,
        r.rowid ≤ (tickWM store s.watermarks).observations) := by
  have hsent : (pollTick store s).sent =
      (if (tickBatch store s.watermarks).isEmpty then []
       else [Msg.events (s.seq + 1) (tickBatch store s.watermarks)
              (tickWM store s.watermarks)]) ∧
      (pollTick store s).session.watermarks = tickWM store s.watermarks ∧
      (pollTick store s).session.lastDataVersion = store.data_version := by
    unfold pollTick
    rw [if_neg hv]
    by_cases hb : (tickBatch store s.watermarks).isEmpty
    · rw [if_pos hb]
      simp [hb]
    · rw [if_neg hb]
      simp only [Bool.not_eq_true] at hb
      simp [hb]
  refine ⟨hsent.1, hsent.2.1, hsent.2.2, rfl, ?_, ?_, ?_, ?_, ?_, ?_, ?_, ?_, ?_, ?_, ?_, ?_⟩
  · exact mem_rowsSince _ _ _
  · exact mem_rowsSince _ _ _
  · exact mem_rowsSince _ _ _
  · exact rowsSince_sorted _ _ _
  · exact rowsSince_sorted _ _ _
  · exact rowsSince_sorted _ _ _
  · intro h
    show foldMaxRowid _ _ _ = _
    rw [h]
    rfl
  · intro hne
    refine ⟨foldMaxRowid_mem_of_gt _ _ _ hne ?_, ?_⟩
    · intro r hr
      exact ((mem_rowsSince _ _ _ r).mp hr).2
    · intro r hr
      exact mem_le_foldMaxRowid _ _ _ r hr
  · intro h
    show foldMaxRowid _ _ _ = _
    rw [h]
    rfl
  · intro hne
    refine ⟨foldMaxRowid_mem_of_gt _ _ _ hne ?_, ?_⟩
    · intro r hr
      exact ((mem_rowsSince _ _ _ r).mp hr).2
    · intro r hr
      exact mem_le_foldMaxRowid _ _ _ r hr
  · intro h
    show foldMaxRowid _ _ _ = _
    rw [h]
    rfl
  · intro hne
    refine ⟨foldMaxRowid_mem_of_gt _ _ _ hne ?_, ?_⟩
    · intro r hr
      exact ((mem_rowsSince _ _ _ r).mp hr).2
    · intro r hr
      exact mem_le_foldMaxRowid _ _ _ r hr

/-- C4 witness: the spec's example.  With watermarks {entities 5,
observations 9, relations 2} and new entity rows 6 and 7, the tick sends the
batch message, the batch is exactly the two ENTITY_CREATED events in rowid
order, and the watermarks advance to {7, 9, 2}. -/
theorem C4_witness :
    store0.data_version ≠ sess0.lastDataVersion ∧
    ((pollTick store0 sess0).sent =
      if (tickBatch store0 sess0.watermarks).isEmpty then []
      else [Msg.events (sess0.seq + 1) (tickBatch store0 sess0.watermarks)
              (tickWM store0 sess0.watermarks)]) ∧
    tickBatch store0 sess0.watermarks = [wsEntityEvent row6, wsEntityEvent row7] ∧
    tickWM store0 sess0.watermarks = ⟨7, 9, 2⟩ :=
  ⟨by decide, (C4_watermark_feed store0 sess0 (by decide)).1, by decide, by decide⟩

/-- C5: on a poll tick whose version counter equals the last seen value, the
session sends exactly one heartbeat (with the incremented sequence number)
and never an events message, and both the watermarks and the last-seen
version are unchanged — regardless of what rows the store holds. -/
theorem C5_heartbeat_only (store : Store) (s : Sess)
    (hv : store.data_version = s.lastDataVersion) :
    (pollTick store s).sent = [Msg.heartbeat (s.seq + 1)] ∧
    (∀ m ∈ (pollTick store s).sent, ∀ q evs wm, m ≠ Msg.events q evs wm) ∧
    (pollTick store s).session.watermarks = s.watermarks ∧
    (pollTick store s).session.lastDataVersion = s.lastDataVersion := by
  have h : pollTick store s =
      { sent := [Msg.heartbeat (s.seq + 1)]
        session := { s with seq := s.seq + 1 } } := by
    unfold pollTick
    rw [if_pos hv]
  rw [h]
  refine ⟨rfl, ?_, rfl, rfl⟩
  intro m hm q evs wm
  rcases List.mem_singleton.mp hm with rfl
  simp

/-
C6: ordering of the built event stream.
-/

theorem pairKey_eq_eventKey (entities : List EntityRow)
    (observations : List ObservationRow) (relations : List RelationRow)
    (p : Event × Nat)
    (hp : p ∈ entities.map (fun e => (tlEntityEvent e, 0)) ++
      relations.map (fun r => (tlRelationEvent r, 1)) ++
      observations.map (fun o => (tlObservationEvent o, 2))) :
    eventKey p.1 = pairKey p := by
  rcases List.mem_append.mp hp with hp2 | hp2
  · rcases List.mem_append.mp hp2 with hp3 | hp3
    · obtain ⟨e, _, rfl⟩ := List.mem_map.mp hp3
      rfl
    · obtain ⟨r, _, rfl⟩ := List.mem_map.mp hp3
      rfl
  · obtain ⟨o, _, rfl⟩ := List.mem_map.mp hp2
    rfl

/-- C6: `build_event_stream` returns exactly the per-row events (one per
entity, relation and observation row), sorted by timestamp ascending with
ties broken by the per-type priority entities < relations < observations and
then by subject entity id ascending; a null or empty timestamp is compared
as `""`, the minimum of the string order, so such rows sort as the lowest
possible timestamp within their tie-break group. -/
theorem C6_event_stream_ordering (entities : List EntityRow)
    (observations : List ObservationRow) (relations : List RelationRow) :
    (build_event_stream entities observations relations).Perm
      (entities.map tlEntityEvent ++ relations.map tlRelationEvent ++
       observations.map tlObservationEvent) ∧
    List.Pairwise (fun a b => eventLt b a = false)
      (build_event_stream entities observations relations) ∧
    (∀ s : String, strLt s "" = false) ∧
    priorityOf "ENTITY_CREATED" < priorityOf "RELATION_CREATED" ∧
    priorityOf "RELATION_CREATED" < priorityOf "OBSERVATION_ADDED" := by
  have hperm0 := sortKey_perm pairLt
    (entities.map (fun e => (tlEntityEvent e, 0)) ++
     relations.map (fun r => (tlRelationEvent r, 1)) ++
     observations.map (fun o => (tlObservationEvent o, 2)))
  refine ⟨?_, ?_, ?_, by decide, by decide⟩
  · unfold build_event_stream
    refine (hperm0.map Prod.fst).trans ?_
    simp [List.map_map, Function.comp_def]
  · unfold build_event_stream
    rw [List.pairwise_map]
    have hsorted := sortKey_sorted pairLt
      (fun p q h => lawful_k6Lt.asymm _ _ h)
      (fun p q r h1 h2 => lawful_k6Lt.le_trans _ _ _ h1 h2)
      (entities.map (fun e => (tlEntityEvent e, 0)) ++
       relations.map (fun r => (tlRelationEvent r, 1)) ++
       observations.map (fun o => (tlObservationEvent o, 2)))
    refine hsorted.imp_of_mem ?_
    intro p q hp hq h
    have hkp : eventKey p.1 = pairKey p :=
      pairKey_eq_eventKey entities observations relations p (hperm0.subset hp)
    have hkq : eventKey q.1 = pairKey q :=
      pairKey_eq_eventKey entities observations relations q (hperm0.subset hq)
    show k6Lt (eventKey q.1) (eventKey p.1) = false
    rw [hkp, hkq]
    exact h
  · intro s
    rcases s with ⟨d⟩
    cases d with
    | nil => rfl
    | cons c cs => rfl

/-- C5 witness: the stale-version store still has entity rows (6 and 7)
above the entities watermark, yet the tick emits a heartbeat only and leaves
the watermarks in place. -/
theorem C5_witness :
    store5.data_version = sess0.lastDataVersion ∧
    (∃ r ∈ store5.entities, sess0.watermarks.entities < r.rowid) ∧
    (pollTick store5 sess0).sent = [Msg.heartbeat (sess0.seq + 1)] ∧
    (pollTick store5 sess0).session.watermarks = sess0.watermarks :=
  ⟨rfl, ⟨row7, by decide, by decide⟩,
   (C5_heartbeat_only store5 sess0 rfl).1,
   (C5_heartbeat_only store5 sess0 rfl).2.2.1⟩

/-
C7: replace semantics of the positions store.
-/

theorem insertPosRows_ok (scope layout_hash now : String)
    (ps : List (String × Pos3)) :
    ∀ acc : List PosRow, (ps.map Prod.fst).Nodup →
      (∀ kp ∈ ps, ∀ r ∈ acc, r.entity_id ≠ kp.1) →
      insertPosRows scope layout_hash now acc ps =
        Except.ok (acc ++ ps.map (fun kp =>
          ⟨kp.1, kp.2.x, kp.2.y, kp.2.z, scope, layout_hash, now, now⟩)) := by
  induction ps with
  | nil => intro acc _ _; simp [insertPosRows]
  | cons kp rest ih =>
    intro acc hnd hfree
    obtain ⟨eid, p⟩ := kp
    have hnot : (acc.any (fun r => r.entity_id == eid)) = false := by
      rw [List.any_eq_false]
      intro r hr
      simpa using hfree (eid, p) (List.mem_cons_self _ _) r hr
    simp only [insertPosRows, hnot, Bool.false_eq_true, if_false]
    rw [List.map_cons, List.nodup_cons] at hnd
    have hfree2 : ∀ kp2 ∈ rest, ∀ r ∈ acc ++
        [(⟨eid, p.x, p.y, p.z, scope, layout_hash, now, now⟩ : PosRow)],
        r.entity_id ≠ kp2.1 := by
      intro kp2 hkp2 r hr
      rcases List.mem_append.mp hr with hr2 | hr2
      · exact hfree kp2 (List.mem_cons_of_mem _ hkp2) r hr2
      · rcases List.mem_singleton.mp hr2 with rfl
        show eid ≠ kp2.1
        intro he
        apply hnd.1
        rw [he]
        exact List.mem_map.mpr ⟨kp2, hkp2, rfl⟩
    rw [ih _ hnd.2 hfree2]
    simp

theorem save_positions_ok (table : List PosRow)
    (positions : List (String × Pos3)) (layout_hash scope now : String)
    (hnd : (positions.map Prod.fst).Nodup)
    (hfree : ∀ kp ∈ positions, ∀ r ∈ table, r.entity_id = kp.1 → r.scope = scope) :
    save_positions table positions layout_hash scope now =
      Except.ok ((table.filter (fun r => !(r.scope == scope))) ++
        positions.map (fun kp =>
          ⟨kp.1, kp.2.x, kp.2.y, kp.2.z, scope, layout_hash, now, now⟩)) := by
  unfold save_positions
  apply insertPosRows_ok _ _ _ _ _ hnd
  intro kp hkp r hr
  rw [List.mem_filter] at hr
  intro he
  have hsc : r.scope = scope := hfree kp hkp r hr.1 he
  have := hr.2
  rw [hsc] at this
  simp at this

/-- C7 (amended): provided none of the saved entity ids is already stored
under a different scope (and the saved keys are distinct, as dict keys are),
`save_positions` succeeds and afterwards `get_positions` on that scope
returns exactly the newly saved position set — all prior entries for the
scope are gone, not merged — while the positions of every other scope are
unchanged.  (The proviso is forced by `C7_counterexample`: `entity_id` is
the table's sole PRIMARY KEY, so inserting a key held by another scope
raises `IntegrityError` instead of completing the save.) -/
theorem C7_replace_semantics (table : List PosRow)
    (positions : List (String × Pos3)) (layout_hash scope now : String)
    (hnd : (positions.map Prod.fst).Nodup)
    (hfree : ∀ kp ∈ positions, ∀ r ∈ table, r.entity_id = kp.1 → r.scope = scope) :
    ∃ table', save_positions table positions layout_hash scope now =
        Except.ok table' ∧
      get_positions scope table' = positions ∧
      ∀ s', s' ≠ scope → get_positions s' table' = get_positions s' table := by
  refine ⟨_, save_positions_ok table positions layout_hash scope now hnd hfree,
    ?_, ?_⟩
  · unfold get_positions
    rw [List.filter_append]
    have h1 : (table.filter (fun r => !(r.scope == scope))).filter
        (fun r => r.scope == scope) = [] := by
      rw [List.filter_eq_nil_iff]
      intro r hr
      rw [List.mem_filter] at hr
      simpa using hr.2
    have h2 : (positions.map (fun kp =>
        (⟨kp.1, kp.2.x, kp.2.y, kp.2.z, scope, layout_hash, now, now⟩ : PosRow))).filter
        (fun r => r.scope == scope) =
        positions.map (fun kp =>
          (⟨kp.1, kp.2.x, kp.2.y, kp.2.z, scope, layout_hash, now, now⟩ : PosRow)) := by
      rw [List.filter_eq_self]
      intro r hr
      obtain ⟨kp, _, rfl⟩ := List.mem_map.mp hr
      simp
    rw [h1, h2, List.nil_append, List.map_map]
    have hcongr : List.map
        ((fun r : PosRow => (r.entity_id, (⟨r.x, r.y, r.z⟩ : Pos3))) ∘
          (fun kp : String × Pos3 =>
            (⟨kp.1, kp.2.x, kp.2.y, kp.2.z, scope, layout_hash, now, now⟩ : PosRow)))
        positions = List.map (fun kp => kp) positions :=
      List.map_congr_left (fun kp _ => rfl)
    rw [hcongr]
    exact List.map_id' positions
  · intro s' hs'
    unfold get_positions
    rw [List.filter_append]
    have h2 : (positions.map (fun kp =>
        (⟨kp.1, kp.2.x, kp.2.y, kp.2.z, scope, layout_hash, now, now⟩ : PosRow))).filter
        (fun r => r.scope == s') = [] := by
      rw [List.filter_eq_nil_iff]
      intro r hr
      obtain ⟨kp, _, rfl⟩ := List.mem_map.mp hr
      simpa using fun hc => hs' hc.symm
    have h1 : (table.filter (fun r => !(r.scope == scope))).filter
        (fun r => r.scope == s') = table.filter (fun r => r.scope == s') := by
      rw [List.filter_filter]
      apply List.filter_congr
      intro r _
      cases hc : (r.scope == s') with
      | false => simp [hc]
      | true =>
        have : r.scope = s' := by simpa using hc
        simp [hc, this, hs']
    rw [h1, h2, List.append_nil]

/-- C7 counterexample: the claim as stated (for every scope and store state)
is false.  With entity `E` stored under scope `s1`, saving positions for key
`E` under scope `global` hits the table-wide PRIMARY KEY on `entity_id`:
the save raises instead of returning, so no post-save state satisfies the
claimed read-back. -/
theorem C7_counterexample :
    ¬ (∃ table', save_positions stE [("E", ⟨1, 1, 1⟩)] "h2" "global" "t1" =
        Except.ok table' ∧
      get_positions "global" table' = [("E", ⟨1, 1, 1⟩)] ∧
      ∀ s', s' ≠ "global" → get_positions s' table' = get_positions s' stE) := by
  rintro ⟨table', h, -, -⟩
  rw [show save_positions stE [("E", ⟨1, 1, 1⟩)] "h2" "global" "t1" =
      Except.error "UNIQUE constraint failed: node_positions.entity_id" from rfl] at h
  exact Except.noConfusion h

/-- C7 witness: the spec's example.  Starting from a state holding {A, B}
under "global", saving {B, C} succeeds and leaves exactly {B, C} (A is
gone); every other scope reads back unchanged. -/
theorem C7_witness :
    (([("B", (⟨5, 5, 5⟩ : Pos3)), ("C", ⟨6, 6, 6⟩)].map Prod.fst).Nodup ∧
     (∀ kp ∈ [("B", (⟨5, 5, 5⟩ : Pos3)), ("C", ⟨6, 6, 6⟩)], ∀ r ∈ stAB,
        r.entity_id = kp.1 → r.scope = "global")) ∧
    ∃ table', save_positions stAB [("B", ⟨5, 5, 5⟩), ("C", ⟨6, 6, 6⟩)]
        "h2" "global" "t1" = Except.ok table' ∧
      get_positions "global" table' = [("B", ⟨5, 5, 5⟩), ("C", ⟨6, 6, 6⟩)] ∧
      ∀ s', s' ≠ "global" → get_positions s' table' = get_positions s' stAB :=
  ⟨⟨by decide, by decide⟩,
   C7_replace_semantics stAB _ "h2" "global" "t1" (by decide) (by decide)⟩

/-
C8: change-feed payloads versus timeline-builder payloads.
-/

/-- C8 (amended): for entity and relation rows the change-feed payload
mapping of ws.py is identical to the timeline builder's mapping of
timeline.py (same event type, timestamp, subject id, and data fields); for
observation rows the two agree on observation id, severity and the
200-character text truncation, but the change-feed payload omits the
`source_type` field that the timeline builder includes (ws.py lines 106-116
versus timeline.py lines 45-57).  The difference is forced by
`C8_counterexample`. -/
theorem C8_event_mapping :
    (∀ e : EntityRow, wsEntityEvent e = tlEntityEvent e) ∧
    (∀ r : RelationRow, wsRelationEvent r = tlRelationEvent r) ∧
    (∀ o : ObservationRow,
      wsObservationEvent o = stripSourceType (tlObservationEvent o)) ∧
    (∀ o : ObservationRow, (tlObservationEvent o).data =
      EventData.observation o.id o.severity (o.text.take 200) (some o.source_type)) ∧
    (∀ o : ObservationRow, (wsObservationEvent o).data =
      EventData.observation o.id o.severity (o.text.take 200) none) :=
  ⟨fun _ => rfl, fun _ => rfl, fun _ => rfl, fun _ => rfl, fun _ => rfl⟩

/-- C8 counterexample: the claim as stated ("same type and field mapping,
differing only in ordering and gap compression") is false for observation
rows: on the same source row the change-feed payload lacks the
`source_type` field the timeline builder emits. -/
theorem C8_counterexample :
    wsObservationEvent ⟨1, "o1", "e1", "hello", "info", "manual", some "2024", none⟩ ≠
    tlObservationEvent ⟨1, "o1", "e1", "hello", "info", "manual", some "2024", none⟩ := by
  decide

/-
C9: the resume handshake merge.
-/

theorem resumeVal_char (old : Nat) (v : Option JVal) :
    (resumeVal old v ≠ old →
      (∃ q, v = some (JVal.num q) ∧ 0 ≤ q) ∨ (∃ b, v = some (JVal.bool b))) ∧
    (∀ q, v = some (JVal.num q) → 0 ≤ q → resumeVal old v = pyNat q) ∧
    (∀ q, v = some (JVal.num q) → q < 0 → resumeVal old v = old) ∧
    (∀ b, v = some (JVal.bool b) → resumeVal old v = cond b 1 0) ∧
    (∀ w, v = some w → (∀ q, w ≠ JVal.num q) → (∀ b, w ≠ JVal.bool b) →
      resumeVal old v = old) ∧
    (v = none → resumeVal old v = old) := by
  refine ⟨?_, ?_, ?_, ?_, ?_, ?_⟩
  · intro hch
    cases v with
    | none => exact absurd rfl hch
    | some w =>
      cases w with
      | num q =>
        by_cases hq : 0 ≤ q
        · exact Or.inl ⟨q, rfl, hq⟩
        · refine absurd ?_ hch
          simp [resumeVal, hq]
      | bool b => exact Or.inr ⟨b, rfl⟩
      | null => exact absurd rfl hch
      | str s => exact absurd rfl hch
      | arr items => exact absurd rfl hch
      | obj fields => exact absurd rfl hch
  · intro q hv hq
    subst hv
    simp [resumeVal, hq]
  · intro q hv hq
    subst hv
    simp [resumeVal, not_le.mpr hq]
  · intro b hv
    subst hv
    rfl
  · intro w hv hnq hnb
    subst hv
    cases w with
    | num q => exact absurd rfl (hnq q)
    | bool b => exact absurd rfl (hnb b)
    | null => rfl
    | str s => rfl
    | arr items => rfl
    | obj fields => rfl
  · intro hv
    subst hv
    rfl

/-- C9 (amended): a client-supplied watermark value overrides the seeded
default for a table exactly when its key is one of the recognized table
keys (entities, observations, relations) and its value is a nonnegative JSON
number — or a JSON boolean, which Python's `isinstance(val, (int, float))`
also accepts because `bool` is a subclass of `int` (`true` overrides to 1,
`false` to 0).  A nonnegative number overrides to its truncation `int(val)`;
negative numbers, strings, nulls, arrays, objects, missing keys, and a
missing or ill-formed envelope are all silently ignored, leaving the seeded
watermark in place; unrecognized keys are never consulted.  The boolean case
is forced by `C9_counterexample`. -/
theorem C9_resume_merge (wm : WM) (initial : Option JVal) :
    (extractClientWM initial = none → applyResume wm initial = wm) ∧
    (∀ cw, extractClientWM initial = some cw →
      (((applyResume wm initial).entities ≠ wm.entities →
          (∃ q, jGet cw "entities" = some (JVal.num q) ∧ 0 ≤ q) ∨
          (∃ b, jGet cw "entities" = some (JVal.bool b))) ∧
        (∀ q, jGet cw "entities" = some (JVal.num q) → 0 ≤ q →
          (applyResume wm initial).entities = pyNat q) ∧
        (∀ q, jGet cw "entities" = some (JVal.num q) → q < 0 →
          (applyResume wm initial).entities = wm.entities) ∧
        (∀ b, jGet cw "entities" = some (JVal.bool b) →
          (applyResume wm initial).entities = cond b 1 0) ∧
        (∀ w, jGet cw "entities" = some w → (∀ q, w ≠ JVal.num q) →
          (∀ b, w ≠ JVal.bool b) →
          (applyResume wm initial).entities = wm.entities) ∧
        (jGet cw "entities" = none →
          (applyResume wm initial).entities = wm.entities)) ∧
      (((applyResume wm initial).observations ≠ wm.observations →
          (∃ q, jGet cw "observations" = some (JVal.num q) ∧ 0 ≤ q) ∨
          (∃ b, jGet cw "observations" = some (JVal.bool b))) ∧
        (∀ q, jGet cw "observations" = some (JVal.num q) → 0 ≤ q →
          (applyResume wm initial).observations = pyNat q) ∧
        (∀ q, jGet cw "observations" = some (JVal.num q) → q < 0 →
          (applyResume wm initial).observations = wm.observations) ∧
        (∀ b, jGet cw "observations" = some (JVal.bool b) →
          (applyResume wm initial).observations = cond b 1 0) ∧
        (∀ w, jGet cw "observations" = some w → (∀ q, w ≠ JVal.num q) →
          (∀ b, w ≠ JVal.bool b) →
          (applyResume wm initial).observations = wm.observations) ∧
        (jGet cw "observations" = none →
          (applyResume wm initial).observations = wm.observations)) ∧
      (((applyResume wm initial).relations ≠ wm.relations →
          (∃ q, jGet cw "relations" = some (JVal.num q) ∧ 0 ≤ q) ∨
          (∃ b, jGet cw "relations" = some (JVal.bool b))) ∧
        (∀ q, jGet cw "relations" = some (JVal.num q) → 0 ≤ q →
          (applyResume wm initial).relations = pyNat q) ∧
        (∀ q, jGet cw "relations" = some (JVal.num q) → q < 0 →
          (applyResume wm initial).relations = wm.relations) ∧
        (∀ b, jGet cw "relations" = some (JVal.bool b) →
          (applyResume wm initial).relations = cond b 1 0) ∧
        (∀ w, jGet cw "relations" = some w → (∀ q, w ≠ JVal.num q) →
          (∀ b, w ≠ JVal.bool b) →
          (applyResume wm initial).relations = wm.relations) ∧
        (jGet cw "relations" = none →
          (applyResume wm initial).relations = wm.relations))) := by
  constructor
  · intro h
    unfold applyResume
    rw [h]
  · intro cw hcw
    have he : (applyResume wm initial).entities =
        resumeVal wm.entities (jGet cw "entities") := by
      unfold applyResume
      rw [hcw]
    have ho : (applyResume wm initial).observations =
        resumeVal wm.observations (jGet cw "observations") := by
      unfold applyResume
      rw [hcw]
    have hr : (applyResume wm initial).relations =
        resumeVal wm.relations (jGet cw "relations") := by
      unfold applyResume
      rw [hcw]
    refine ⟨?_, ?_, ?_⟩
    · rw [he]
      exact resumeVal_char wm.entities (jGet cw "entities")
    · rw [ho]
      exact resumeVal_char wm.observations (jGet cw "observations")
    · rw [hr]
      exact resumeVal_char wm.relations (jGet cw "relations")

/-- C9 counterexample: the claim as stated ("overrides if and only if the
value is a non-negative number") is false.  The JSON boolean `true` is not a
number, yet it overrides the seeded entities watermark (5) with 1, because
`isinstance(True, (int, float))` holds in Python. -/
theorem C9_counterexample :
    (applyResume ⟨5, 9, 2⟩ msgBool).entities = 1 ∧
    (applyResume ⟨5, 9, 2⟩ msgBool).entities ≠ (⟨5, 9, 2⟩ : WM).entities :=
  ⟨rfl, by decide⟩

/-- C9 witness: the amended merge characterization applied to a concrete
message — a fractional entities value 7.5 overrides to 7, a string
observations value and a negative relations value are ignored. -/
theorem C9_witness :
    extractClientWM msg9 = some cw9 ∧
    (0 : ℚ) ≤ 15/2 ∧
    (applyResume ⟨5, 9, 2⟩ msg9).entities = pyNat (15/2) ∧
    (applyResume ⟨5, 9, 2⟩ msg9).observations = (⟨5, 9, 2⟩ : WM).observations ∧
    (applyResume ⟨5, 9, 2⟩ msg9).relations = (⟨5, 9, 2⟩ : WM).relations := by
  have h := (C9_resume_merge ⟨5, 9, 2⟩ msg9).2 cw9 rfl
  refine ⟨rfl, by decide, ?_, ?_, ?_⟩
  · exact h.1.2.1 (15/2) rfl (by decide)
  · exact h.2.1.2.2.2.2.1 (JVal.str "x") rfl
      (fun _ hq => JVal.noConfusion hq) (fun _ hb => JVal.noConfusion hb)
  · exact h.2.2.2.2.1 (-3) rfl (by decide)

end BrainViewer
